import Mathlib

set_option maxRecDepth 8192

/-!
Verification development for the hackathon-scout streaming agent.

The embedding covers:
* the JSON value model used for dynamically typed fields (`JVal`);
* the server's `StreamEvent` union and the JSON-line event encoder;
* the per-request stream transformer (`transformStep` / `transformRun`),
  including the arXiv tool-result summarizer;
* the literature fetcher (`fetchArxiv`);
* the client reducer (`clientStepJ` / `handleChunk`).

JSON.stringify / JSON.parse are modelled at the JSON-value level: a wire
record is the ordered field list of the serialized object (fields holding
the JS value `undefined` are omitted by JSON.stringify, which is modelled
by omitting the field from the list).
-/

/-- JSON-like runtime values; `Option JVal` is used where a JS value may
also be `undefined` (absent). -/
inductive JVal where
  | null : JVal
  | bool : Bool → JVal
  | num : Int → JVal
  | str : String → JVal
  | arr : List JVal → JVal
  | obj : List (String × JVal) → JVal

mutual

/-- JS `String(v)` coercion, restricted to JSON values.  Arrays stringify by
joining the elements with commas (JS `Array.prototype.toString`, where a
`null` element contributes the empty string); plain objects stringify to
`[object Object]`. -/
def jToString : JVal → String
  | .null => "null"
  | .bool b => cond b "true" "false"
  | .num n => toString n
  | .str s => s
  | .arr xs => String.intercalate "," (jToStringList xs)
  | .obj _ => "[object Object]"

def jToStringList : List JVal → List String
  | [] => []
  | .null :: vs => "" :: jToStringList vs
  | v :: vs => jToString v :: jToStringList vs

end

/-- `typeof v === 'string' ? v : undefined` on a possibly-absent value. -/
def asStr : Option JVal → Option String
  | some (.str s) => some s
  | _ => none

/-- Field lookup in a serialized JSON object (first binding wins, as in a
parsed JSON object with distinct keys). -/
def jLookup (fs : List (String × JVal)) (k : String) : Option JVal :=
  (fs.find? (fun p => p.1 == k)).map (fun p => p.2)

/-- JS property access `v[k]`: defined on objects, `undefined` otherwise. -/
def jGet (v : JVal) (k : String) : Option JVal :=
  match v with
  | .obj fs => jLookup fs k
  | _ => none

/-- A field that is present only when the JS value is not `undefined`. -/
def optField (k : String) : Option JVal → List (String × JVal)
  | some v => [(k, v)]
  | none => []

/-- The server's structured stream events (src/unnamed/part_000, `StreamEvent`). -/
inductive StreamEvent where
  | tool_call (tool message : String) (toolCallId : Option String) (input : Option JVal)
  | tool_result (tool message : String) (toolCallId : Option String) (input output : Option JVal)
  | llm_start (model message : String)
  | token (content : String)
  | complete (message : String)
  | error (message : String)

def MODEL_NAME : String := "gpt-5"

/-- `encodeEvent` (src/unnamed/part_000 line 42): the JSON object produced by
`JSON.stringify(event)`, as its ordered field list; fields that are
`undefined` are omitted.  The trailing newline is wire framing around this
record. -/
def encodeEvent : StreamEvent → List (String × JVal)
  | .tool_call tool message toolCallId input =>
      [("type", .str "tool_call"), ("tool", .str tool)]
        ++ optField "toolCallId" (toolCallId.map .str)
        ++ optField "input" input
        ++ [("message", .str message)]
  | .tool_result tool message toolCallId input output =>
      [("type", .str "tool_result"), ("tool", .str tool)]
        ++ optField "toolCallId" (toolCallId.map .str)
        ++ optField "input" input
        ++ optField "output" output
        ++ [("message", .str message)]
  | .llm_start model message =>
      [("type", .str "llm_start"), ("model", .str model), ("message", .str message)]
  | .token content =>
      [("type", .str "token"), ("content", .str content)]
  | .complete message =>
      [("type", .str "complete"), ("message", .str message)]
  | .error message =>
      [("type", .str "error"), ("message", .str message)]

/-- Modelled from the spec: the client side has no structural decoder in the
source (it JSON-parses the line and casts), and §4.2 demands that decoding be
the exact inverse of encoding.  `decodeEvent` reads a parsed wire record back
into the event union by its `type` tag. -/
def decodeEvent (fs : List (String × JVal)) : Option StreamEvent :=
  match jLookup fs "type" with
  | some (.str "tool_call") =>
      match jLookup fs "tool", jLookup fs "message" with
      | some (.str tool), some (.str message) =>
          some (.tool_call tool message (asStr (jLookup fs "toolCallId")) (jLookup fs "input"))
      | _, _ => none
  | some (.str "tool_result") =>
      match jLookup fs "tool", jLookup fs "message" with
      | some (.str tool), some (.str message) =>
          some (.tool_result tool message (asStr (jLookup fs "toolCallId"))
            (jLookup fs "input") (jLookup fs "output"))
      | _, _ => none
  | some (.str "llm_start") =>
      match jLookup fs "model", jLookup fs "message" with
      | some (.str model), some (.str message) => some (.llm_start model message)
      | _, _ => none
  | some (.str "token") =>
      match jLookup fs "content" with
      | some (.str content) => some (.token content)
      | _ => none
  | some (.str "complete") =>
      match jLookup fs "message" with
      | some (.str message) => some (.complete message)
      | _ => none
  | some (.str "error") =>
      match jLookup fs "message" with
      | some (.str message) => some (.error message)
      | _ => none
  | _ => none

/-- The optional fields of an event that are absent (`undefined`). -/
def absentOptionals : StreamEvent → List String
  | .tool_call _ _ toolCallId input =>
      (cond toolCallId.isNone ["toolCallId"] []) ++ (cond input.isNone ["input"] [])
  | .tool_result _ _ toolCallId input output =>
      (cond toolCallId.isNone ["toolCallId"] []) ++ (cond input.isNone ["input"] [])
        ++ (cond output.isNone ["output"] [])
  | _ => []

/-- An upstream chunk of `result.fullStream`: a record with a `type`
discriminant and dynamically typed fields, each possibly absent. -/
structure Chunk where
  type : String
  toolName : Option JVal := none
  toolCallId : Option JVal := none
  input : Option JVal := none
  output : Option JVal := none
  text : Option JVal := none
  error : Option JVal := none

/-- `String(chunk.toolName ?? 'tool')`: nullish coalescing, then coercion. -/
def toolNameOf (c : Chunk) : String :=
  match c.toolName with
  | none => "tool"
  | some .null => "tool"
  | some v => jToString v

/-- `typeof chunk.text === 'string' ? chunk.text : ''`. -/
def textOf (c : Chunk) : String :=
  match c.text with
  | some (.str s) => s
  | _ => ""

/-- `String(chunk.error)`; `String(undefined)` is the text `undefined`. -/
def errorStrOf (c : Chunk) : String :=
  match c.error with
  | none => "undefined"
  | some v => jToString v

/-- JS regex `\s` white space, restricted to the ASCII range (the payloads at
stake are ASCII XML). -/
def jsWs (c : Char) : Bool :=
  c == ' ' || c == '\t' || c == '\n' || c == '\r' || c == '\x0b' || c == '\x0c'

/-- JS `String.prototype.trim`: strip leading and trailing white space. -/
def jsTrim (s : List Char) : List Char :=
  ((s.dropWhile jsWs).reverse.dropWhile jsWs).reverse

/-- JS `.replace(/\s+/g, ' ')`: each maximal run of white space becomes one
space.  Written with a one-character lookahead so the recursion is
structural. -/
def collapseWs : List Char → List Char
  | [] => []
  | [c] => if jsWs c then [' '] else [c]
  | c1 :: c2 :: rest =>
      if jsWs c1 && jsWs c2 then collapseWs (c2 :: rest)
      else if jsWs c1 then ' ' :: collapseWs (c2 :: rest)
      else c1 :: collapseWs (c2 :: rest)

def hasPfxStr (p : String) (s : List Char) : Bool :=
  p.toList.isPrefixOf s

/-- `(output.match(/<entry>/g) || []).length`: number of occurrences of the
entry delimiter, scanning left to right and resuming after each match.
`fuel` bounds the scan; it is instantiated with the input length, which
suffices since every step consumes at least one character. -/
def countEntryAux : Nat → List Char → Nat
  | 0, _ => 0
  | _ + 1, [] => 0
  | fuel + 1, c :: rest =>
      if hasPfxStr "<entry>" (c :: rest) then
        1 + countEntryAux fuel (List.drop 7 (c :: rest))
      else countEntryAux fuel rest

def countEntryTags (s : List Char) : Nat := countEntryAux s.length s

/-- `output.match(/<title>([^<]+)<\/title>/g)`, reported as the list of
captured bodies (the `[^<]+` groups): a match needs the literal `<title>`,
then a nonempty run of characters other than `<`, then the literal
`</title>`; the scan resumes after the end of a match, or one character
later when no match starts at the current position. -/
def titleScanAux : Nat → List Char → List (List Char)
  | 0, _ => []
  | _ + 1, [] => []
  | fuel + 1, c :: rest =>
      if hasPfxStr "<title>" (c :: rest) then
        let after := List.drop 7 (c :: rest)
        let body := after.takeWhile (fun ch => ch != '<')
        if body.length > 0 && hasPfxStr "</title>" (after.drop body.length) then
          body :: titleScanAux fuel ((after.drop body.length).drop 8)
        else titleScanAux fuel rest
      else titleScanAux fuel rest

def titleBodies (s : String) : List (List Char) :=
  titleScanAux s.toList.length s.toList

/-- The full matched substrings of `/<title>([^<]+)<\/title>/g` (what
`output.match` returns): each is the captured body with the delimiting tags
around it. -/
def titleMatches (s : String) : List String :=
  (titleBodies s).map (fun b => String.mk ("<title>".toList ++ b ++ "</title>".toList))

/-- `t.replace(/<\/?title>/g, '')`: delete every occurrence of `<title>` or
`</title>`, scanning left to right. -/
def stripTagsAux : Nat → List Char → List Char
  | 0, s => s
  | _ + 1, [] => []
  | fuel + 1, c :: rest =>
      if hasPfxStr "</title>" (c :: rest) then stripTagsAux fuel (List.drop 8 (c :: rest))
      else if hasPfxStr "<title>" (c :: rest) then stripTagsAux fuel (List.drop 7 (c :: rest))
      else c :: stripTagsAux fuel rest

def stripTitleTags (s : List Char) : List Char := stripTagsAux s.length s

/-- `t.replace(/<\/?title>/g, '').trim().replace(/\s+/g, ' ')`. -/
def normalizeTitle (t : String) : String :=
  String.mk (collapseWs (jsTrim (stripTitleTags t.toList)))

/-- `titleMatches.slice(1, 4).map(...)`: skip the feed title, take the next
three paper titles, normalized. -/
def paperTitles (s : String) : List String :=
  (((titleMatches s).drop 1).take 3).map normalizeTitle

/-- The arXiv summary message computed in the `tool-result` branch
(src/unnamed/part_000 lines 147-160). -/
def arxivMessage (s : String) : String :=
  let paperCount := countEntryTags s.toList
  let titles := paperTitles s
  if titles.length > 0 then
    "Found " ++ toString paperCount ++ " papers. Top: " ++ String.intercalate " • " titles
  else
    "Found " ++ toString paperCount ++ " papers"

/-- The `message` field of a `tool_result` event (lines 146-161): the generic
`{tool} complete` text, replaced by the arXiv summary when the tool is
`arxiv_search` and its output is a string. -/
def resultMessage (c : Chunk) : String :=
  if toolNameOf c == "arxiv_search" then
    match c.output with
    | some (.str s) => arxivMessage s
    | _ => toolNameOf c ++ " complete"
  else toolNameOf c ++ " complete"

/-- The upstream chunk kinds that signal that generation is beginning. -/
def isStartSignal (c : Chunk) : Bool :=
  c.type == "start" || c.type == "start-step" || c.type == "text-start"

/-- The upstream chunk kinds after which the code's transformation emits a
terminal event. -/
def isTerminalChunk (c : Chunk) : Bool :=
  c.type == "finish" || c.type == "tool-error" || c.type == "error"

/-- One step of the stream transformer (src/unnamed/part_000 lines 112-201):
given the current `llmStarted` flag and an upstream chunk, the new flag and
the list of events enqueued for that chunk. -/
def transformStep (llmStarted : Bool) (c : Chunk) : Bool × List StreamEvent :=
  if isStartSignal c then
    if llmStarted then (llmStarted, [])
    else (true, [.llm_start MODEL_NAME ("Analyzing with " ++ MODEL_NAME ++ "...")])
  else if c.type == "tool-call" then
    (llmStarted,
      [.tool_call (toolNameOf c) ("Calling " ++ toolNameOf c ++ "...") (asStr c.toolCallId) c.input])
  else if c.type == "tool-result" then
    (llmStarted,
      [.tool_result (toolNameOf c) (resultMessage c) (asStr c.toolCallId) c.input c.output])
  else if c.type == "text-delta" then
    (llmStarted, [.token (textOf c)])
  else if c.type == "finish" then
    (llmStarted, [.complete "Analysis complete"])
  else if c.type == "tool-error" then
    (llmStarted, [.error ("Tool error: " ++ errorStrOf c)])
  else if c.type == "error" then
    (llmStarted, [.error ("Error: " ++ errorStrOf c)])
  else (llmStarted, [])

/-- The whole per-request transformation: fold `transformStep` over the
upstream chunk sequence, concatenating the enqueued events in order. -/
def transformRun : Bool → List Chunk → List StreamEvent
  | _, [] => []
  | st, c :: cs => (transformStep st c).2 ++ transformRun (transformStep st c).1 cs

/-- The summary message as the spec words it: count the entry delimiters to
get the paper count; extract the title-delimited substrings; discard the
first (feed title); take up to the next three, trimmed and with internal
white-space runs collapsed; report them after the count when at least one
exists. -/
def specSummaryMessage (s : String) : String :=
  let count := countEntryTags s.toList
  let titles := (((titleBodies s).drop 1).take 3).map
    (fun t => String.mk (collapseWs (jsTrim t)))
  if titles.length > 0 then
    "Found " ++ toString count ++ " papers. Top: " ++ String.intercalate " • " titles
  else
    "Found " ++ toString count ++ " papers"

/-- An HTTP response as the fetcher observes it. -/
structure HttpResp where
  status : Nat
  body : String

/-- `Response.ok`: status in the 200-299 range. -/
def HttpResp.ok (r : HttpResp) : Bool :=
  200 ≤ r.status && r.status < 300

def hexUpper (n : Nat) : Char :=
  if n < 10 then Char.ofNat (48 + n) else Char.ofNat (55 + n)

/-- UTF-8 bytes of a character, as numbers. -/
def utf8Bytes (c : Char) : List Nat :=
  let n := c.toNat
  if n < 0x80 then [n]
  else if n < 0x800 then [0xC0 + n / 0x40, 0x80 + n % 0x40]
  else if n < 0x10000 then [0xE0 + n / 0x1000, 0x80 + n / 0x40 % 0x40, 0x80 + n % 0x40]
  else [0xF0 + n / 0x40000, 0x80 + n / 0x1000 % 0x40, 0x80 + n / 0x40 % 0x40, 0x80 + n % 0x40]

/-- `encodeURIComponent` unreserved characters. -/
def uriUnreserved (c : Char) : Bool :=
  c.isAlpha || c.isDigit || c == '-' || c == '_' || c == '.' || c == '!' ||
    c == '~' || c == '*' || c == Char.ofNat 39 || c == '(' || c == ')'

/-- `encodeURIComponent`: unreserved characters kept, all others
percent-encoded byte-wise in UTF-8 with upper-case hex. -/
def encodeURIComponent (s : String) : String :=
  String.mk (s.toList.flatMap (fun c =>
    if uriUnreserved c then [c]
    else (utf8Bytes c).flatMap (fun b => ['%', hexUpper (b / 16), hexUpper (b % 16)])))

/-- The query URL built by `fetchArxiv` (src/unnamed/part_000 line 218). -/
def arxivUrl (query : String) (maxResults : Nat) : String :=
  "http://export.arxiv.org/api/query?search_query=all:" ++ encodeURIComponent query ++
    "&max_results=" ++ toString maxResults ++ "&sortBy=relevance"

/-- `fetchArxiv` (src/unnamed/part_000 lines 217-225): issue one GET for the
built URL — the network is passed as a function from URL to response — and
return the body on success, or the textual error placeholder carrying the
status code otherwise. -/
def fetchArxiv (query : String) (maxResults : Nat) (net : String → HttpResp) : String :=
  let response := net (arxivUrl query maxResults)
  if response.ok then response.body
  else "Error: ArXiv API returned status " ++ toString response.status

/-- The client's status field. -/
inductive ClientStatus where
  | idle | loading | complete | error
deriving DecidableEq

/-- One activity-log entry, as the reducer constructs it.  The `id` and
`timestamp` fields of the source are derived from the wall clock
(`Date.now()` / `new Date()`), which is outside the model; the entry keeps
the event-type tag and the raw `message` field. -/
structure ActivityItem where
  type : String
  message : Option JVal

/-- The client display state triple maintained by the reducer. -/
structure ClientState where
  status : ClientStatus
  activity : List ActivityItem
  response : String

/-- State at the start of a search: `setResponse('')`, `setActivity([])`,
`setStatus('loading')` (src/unnamed/part_001 lines 119-122). -/
def clientInit : ClientState :=
  { status := .loading, activity := [], response := "" }

/-- The `switch (event.type)` body of `handleChunk` (src/unnamed/part_001
lines 69-104), applied to a parsed record.  A record whose `type` is not one
of the six known tags (or is not a string) falls through the switch and
leaves the state unchanged. -/
def clientStepJ (st : ClientState) (v : JVal) : ClientState :=
  match jGet v "type" with
  | some (.str t) =>
      if t == "tool_call" || t == "tool_result" || t == "llm_start" then
        { st with activity := st.activity ++ [{ type := t, message := jGet v "message" }] }
      else if t == "token" then
        { st with response := st.response ++
            (match jGet v "content" with
             | none => "undefined"
             | some w => jToString w) }
      else if t == "complete" then
        { st with activity := st.activity ++ [{ type := "complete", message := jGet v "message" }],
                  status := .complete }
      else if t == "error" then
        { st with activity := st.activity ++ [{ type := "error", message := jGet v "message" }],
                  status := .error }
      else st
  | _ => st

/-- A raw chunk delivered to `handleChunk`: either a string still to be
JSON-parsed, or an already parsed value. -/
inductive RawChunk where
  | str (s : String)
  | val (v : JVal)

/-- `handleChunk` (src/unnamed/part_001 lines 55-107).  `JSON.parse` is an
external library function, passed in as `parse`; when it fails (the `catch`
branch), the reducer returns early without touching the state. -/
def handleChunk (parse : String → Option JVal) (st : ClientState) : RawChunk → ClientState
  | .str s =>
      match parse s with
      | none => st
      | some v => clientStepJ st v
  | .val v => clientStepJ st v

/-- A server event as the client sees it after JSON-parsing the wire line. -/
def eventToJ (e : StreamEvent) : JVal := .obj (encodeEvent e)

/-- The concatenation, in arrival order, of the `content` fields of the
`token` events of a sequence. -/
def tokenConcat : List StreamEvent → String
  | [] => ""
  | .token c :: es => c ++ tokenConcat es
  | _ :: es => tokenConcat es

/-- Operational model of the imperative transform loop: `TransformTrace st cs
out` holds when one run of the transformer, starting with `llmStarted = st`,
consumes the upstream chunks `cs` and enqueues exactly the events `out`.
The flag is threaded through the run and is the only state. -/
inductive TransformTrace : Bool → List Chunk → List StreamEvent → Prop where
  | nil (st : Bool) : TransformTrace st [] []
  | cons (st : Bool) (c : Chunk) (cs : List Chunk) (out : List StreamEvent) :
      TransformTrace (transformStep st c).1 cs out →
      TransformTrace st (c :: cs) ((transformStep st c).2 ++ out)

def isLlmStartEv : StreamEvent → Bool
  | .llm_start _ _ => true
  | _ => false

def isTokenEv : StreamEvent → Bool
  | .token _ => true
  | _ => false

def isErrorEv : StreamEvent → Bool
  | .error _ => true
  | _ => false

/-- `complete` and `error` are the terminal event kinds. -/
def isTerminalEv : StreamEvent → Bool
  | .complete _ => true
  | .error _ => true
  | _ => false

def countLlmStart (evs : List StreamEvent) : Nat :=
  (evs.filter isLlmStartEv).length

/-- Every `llm_start` of the sequence precedes every `token`: no `token` has
an `llm_start` somewhere after it. -/
def noTokenBeforeStart : List StreamEvent → Bool
  | [] => true
  | e :: es =>
      if isTokenEv e then !es.any isLlmStartEv && noTokenBeforeStart es
      else noTokenBeforeStart es

/-- The sequence ends with exactly one terminal (`complete`/`error`) event:
there is exactly one terminal event and it is the last element. -/
def terminatesOnce (evs : List StreamEvent) : Bool :=
  (evs.filter isTerminalEv).length == 1 &&
    (match evs.getLast? with
     | some e => isTerminalEv e
     | none => false)

/-- No event follows an `error` event. -/
def noEventsAfterError : List StreamEvent → Bool
  | [] => true
  | .error _ :: es => es.isEmpty
  | _ :: es => noEventsAfterError es

/-- No `text-delta` chunk arrives before the first generation-start signal
(the well-formedness the model-calling runtime guarantees: a stream opens
with its `start` marker). -/
def noDeltaBeforeStart : List Chunk → Bool
  | [] => true
  | c :: cs =>
      if isStartSignal c then true
      else !(c.type == "text-delta") && noDeltaBeforeStart cs

/-- Claim C1 as stated, for one upstream sequence: at most one `llm_start` in
the output, and every `llm_start` precedes every `token`. -/
def c1Property (cs : List Chunk) : Prop :=
  countLlmStart (transformRun false cs) ≤ 1 ∧
    noTokenBeforeStart (transformRun false cs) = true

/-- Claim C2 as stated, for one upstream sequence: the output ends with
exactly one terminal event, and nothing follows an `error`. -/
def c2Property (cs : List Chunk) : Prop :=
  terminatesOnce (transformRun false cs) = true ∧
    noEventsAfterError (transformRun false cs) = true

/-- None of an event's absent optional fields appears among the keys of its
wire record. -/
def absentKeysOmitted (e : StreamEvent) : Bool :=
  (absentOptionals e).all (fun k => !((encodeEvent e).map Prod.fst).contains k)

/-- Claim C5: decoding the encoded wire record of any representable
`StreamEvent` yields the event back, and absent optional fields do not
appear among the record's keys. -/
theorem c5_wire_roundtrip : ∀ e : StreamEvent,
    decodeEvent (encodeEvent e) = some e ∧ absentKeysOmitted e = true := by
  intro e
  cases e with
  | tool_call tool message tcid inp =>
      cases tcid <;> cases inp <;> exact ⟨rfl, rfl⟩
  | tool_result tool message tcid inp out =>
      cases tcid <;> cases inp <;> cases out <;> exact ⟨rfl, rfl⟩
  | llm_start model message => exact ⟨rfl, rfl⟩
  | token content => exact ⟨rfl, rfl⟩
  | complete message => exact ⟨rfl, rfl⟩
  | error message => exact ⟨rfl, rfl⟩

theorem c5_wire_roundtrip_witness :
    decodeEvent (encodeEvent (.tool_call "arxiv_search" "Calling arxiv_search..." none none)) =
      some (.tool_call "arxiv_search" "Calling arxiv_search..." none none) ∧
    absentKeysOmitted (.tool_call "arxiv_search" "Calling arxiv_search..." none none) = true :=
  c5_wire_roundtrip _

/-- Claim C7: for every query and result cap, a non-success response makes
`fetchArxiv` return the textual placeholder carrying the status code (it
never raises there), and a success response makes it return the raw body. -/
theorem c7_fetch_error_placeholder :
    ∀ (query : String) (maxResults : Nat) (net : String → HttpResp),
      ((net (arxivUrl query maxResults)).ok = false →
        fetchArxiv query maxResults net =
          "Error: ArXiv API returned status " ++ toString (net (arxivUrl query maxResults)).status) ∧
      ((net (arxivUrl query maxResults)).ok = true →
        fetchArxiv query maxResults net = (net (arxivUrl query maxResults)).body) := by
  intro query maxResults net
  constructor <;> intro h <;> simp [fetchArxiv, h]

theorem c7_fetch_error_placeholder_witness :
    fetchArxiv "ai agents" 5 (fun _ => { status := 503, body := "unavailable" }) =
      "Error: ArXiv API returned status " ++ toString (503 : Nat) :=
  (c7_fetch_error_placeholder "ai agents" 5 _).1 rfl

/-- Claim C8: a chunk whose type is none of the nine handled kinds produces
no event and leaves the flag unchanged (the transformer, a total function in
this model, silently drops it). -/
theorem c8_unknown_chunks_dropped :
    ∀ (st : Bool) (c : Chunk),
      ¬ c.type ∈ ["start", "start-step", "text-start", "tool-call", "tool-result",
        "text-delta", "finish", "tool-error", "error"] →
      transformStep st c = (st, []) := by
  intro st c h
  simp only [List.mem_cons, not_or] at h
  obtain ⟨h1, h2, h3, h4, h5, h6, h7, h8, h9, -⟩ := h
  simp [transformStep, isStartSignal, h1, h2, h3, h4, h5, h6, h7, h8, h9]

theorem c8_unknown_chunks_dropped_witness :
    transformStep false { type := "reasoning-delta" } = (false, []) :=
  c8_unknown_chunks_dropped false _ (by decide)

/-- Claim C9: a raw string chunk that fails to JSON-parse leaves the reducer
state (status, activity log, response text) unchanged; the reducer, total in
this model, continues with later chunks. -/
theorem c9_malformed_chunk_ignored :
    ∀ (parse : String → Option JVal) (st : ClientState) (s : String),
      parse s = none → handleChunk parse st (.str s) = st := by
  intro parse st s h
  simp [handleChunk, h]

theorem c9_malformed_chunk_ignored_witness :
    handleChunk (fun _ => none) clientInit (.str "definitely not json") = clientInit :=
  c9_malformed_chunk_ignored _ clientInit _ rfl

/-- Every run of the transformer produces the events `transformRun` computes. -/
theorem trace_transformRun : ∀ (st : Bool) (cs : List Chunk),
    TransformTrace st cs (transformRun st cs) := by
  intro st cs
  induction cs generalizing st with
  | nil => exact .nil st
  | cons c cs ih => exact .cons st c cs _ (ih _)

/-- The step relation is deterministic. -/
theorem trace_det : ∀ (st : Bool) (cs : List Chunk) (out1 out2 : List StreamEvent),
    TransformTrace st cs out1 → TransformTrace st cs out2 → out1 = out2 := by
  intro st cs out1 out2 h1 h2
  induction h1 generalizing out2 with
  | nil => cases h2; rfl
  | cons st c cs out _ ih =>
      cases h2 with
      | cons _ _ _ out2' h2' => rw [ih out2' h2']

/-- Claim C10: the transformer is deterministic — two runs over the same
upstream chunk sequence, each from `llmStarted = false`, enqueue identical
event sequences; the run's only state is the per-request flag threaded by
the trace. -/
theorem c10_transform_deterministic :
    ∀ (cs : List Chunk) (out1 out2 : List StreamEvent),
      TransformTrace false cs out1 → TransformTrace false cs out2 → out1 = out2 :=
  fun cs out1 out2 h1 h2 => trace_det false cs out1 out2 h1 h2

theorem c10_transform_deterministic_witness :
    [StreamEvent.llm_start "gpt-5" "Analyzing with gpt-5..."] =
      transformRun false [{ type := "start" }] :=
  c10_transform_deterministic [{ type := "start" }] _ _
    (trace_transformRun false [{ type := "start" }])
    (trace_transformRun false [{ type := "start" }])

theorem clientStepJ_token : ∀ (st : ClientState) (c : String),
    clientStepJ st (eventToJ (.token c)) = { st with response := st.response ++ c } := by
  intro st c
  rfl

theorem clientStepJ_response_other : ∀ (st : ClientState) (e : StreamEvent),
    isTokenEv e = false → (clientStepJ st (eventToJ e)).response = st.response := by
  intro st e h
  cases e with
  | tool_call tool message tcid inp => cases tcid <;> cases inp <;> rfl
  | tool_result tool message tcid inp out => cases tcid <;> cases inp <;> cases out <;> rfl
  | llm_start model message => rfl
  | token content => simp [isTokenEv] at h
  | complete message => rfl
  | error message => rfl

theorem clientFold_response : ∀ (es : List StreamEvent) (st : ClientState),
    ((es.map eventToJ).foldl clientStepJ st).response = st.response ++ tokenConcat es := by
  intro es
  induction es with
  | nil => intro st; simp [tokenConcat, String.append_empty]
  | cons e es ih =>
      intro st
      cases e with
      | token content =>
          simp only [List.map, List.foldl, clientStepJ_token, ih, tokenConcat]
          simp [String.append_assoc]
      | tool_call tool message tcid inp =>
          simp only [List.map, List.foldl, ih, tokenConcat]
          rw [clientStepJ_response_other st (.tool_call tool message tcid inp) rfl]
      | tool_result tool message tcid inp out =>
          simp only [List.map, List.foldl, ih, tokenConcat]
          rw [clientStepJ_response_other st (.tool_result tool message tcid inp out) rfl]
      | llm_start model message =>
          simp only [List.map, List.foldl, ih, tokenConcat]
          rw [clientStepJ_response_other st (.llm_start model message) rfl]
      | complete message =>
          simp only [List.map, List.foldl, ih, tokenConcat]
          rw [clientStepJ_response_other st (.complete message) rfl]
      | error message =>
          simp only [List.map, List.foldl, ih, tokenConcat]
          rw [clientStepJ_response_other st (.error message) rfl]

/-- The reducer run over the parsed wire records of an event sequence,
starting in the fresh search state. -/
def clientRun (es : List StreamEvent) : ClientState :=
  (es.map eventToJ).foldl clientStepJ clientInit

/-- Claim C6: after the reducer consumes any event sequence, the accumulated
response text equals the concatenation, in arrival order, of the `content`
fields of the `token` events consumed so far (the text only ever grows by
appending). -/
theorem c6_response_is_token_concat :
    ∀ es : List StreamEvent, (clientRun es).response = tokenConcat es := by
  intro es
  rw [clientRun, clientFold_response]
  simp [clientInit, String.empty_append]

theorem transformStep_flag_of_not_start : ∀ (st : Bool) (c : Chunk),
    isStartSignal c = false → (transformStep st c).1 = st := by
  intro st c h
  unfold transformStep
  split_ifs <;> simp_all

theorem transformStep_no_llmstart_of_not_start : ∀ (st : Bool) (c : Chunk),
    isStartSignal c = false → ∀ e ∈ (transformStep st c).2, isLlmStartEv e = false := by
  intro st c h
  unfold transformStep
  split_ifs <;> simp_all [isLlmStartEv]

theorem transformStep_of_start_false : ∀ c : Chunk, isStartSignal c = true →
    transformStep false c =
      (true, [.llm_start MODEL_NAME ("Analyzing with " ++ MODEL_NAME ++ "...")]) := by
  intro c h
  simp [transformStep, h]

theorem transformStep_of_start_true : ∀ c : Chunk, isStartSignal c = true →
    transformStep true c = (true, []) := by
  intro c h
  simp [transformStep, h]

theorem transformStep_no_token_of_not_delta : ∀ (st : Bool) (c : Chunk),
    c.type ≠ "text-delta" → ∀ e ∈ (transformStep st c).2, isTokenEv e = false := by
  intro st c h
  unfold transformStep
  split_ifs <;> simp_all [isTokenEv]

theorem run_true_no_llmstart : ∀ (cs : List Chunk) (e : StreamEvent),
    e ∈ transformRun true cs → isLlmStartEv e = false := by
  intro cs
  induction cs with
  | nil => intro e he; simp [transformRun] at he
  | cons c cs ih =>
      intro e he
      rw [transformRun] at he
      rcases List.mem_append.1 he with h1 | h2
      · by_cases hs : isStartSignal c = true
        · rw [transformStep_of_start_true c hs] at h1; simp at h1
        · exact transformStep_no_llmstart_of_not_start true c (by simpa using hs) e h1
      · have hflag : (transformStep true c).1 = true := by
          by_cases hs : isStartSignal c = true
          · rw [transformStep_of_start_true c hs]
          · rw [transformStep_flag_of_not_start true c (by simpa using hs)]
        rw [hflag] at h2
        exact ih e h2

theorem countLlmStart_nil_of_all : ∀ l : List StreamEvent,
    (∀ e ∈ l, isLlmStartEv e = false) → countLlmStart l = 0 := by
  intro l h
  unfold countLlmStart
  rw [List.length_eq_zero, List.filter_eq_nil_iff]
  intro e he
  simp [h e he]

theorem countLlmStart_append : ∀ l1 l2 : List StreamEvent,
    countLlmStart (l1 ++ l2) = countLlmStart l1 + countLlmStart l2 := by
  intro l1 l2
  simp [countLlmStart, List.filter_append]

theorem noTokenBeforeStart_of_no_llmstart : ∀ l : List StreamEvent,
    (∀ e ∈ l, isLlmStartEv e = false) → noTokenBeforeStart l = true := by
  intro l h
  induction l with
  | nil => rfl
  | cons e es ih =>
      have htail : noTokenBeforeStart es = true :=
        ih (fun x hx => h x (List.mem_cons_of_mem e hx))
      unfold noTokenBeforeStart
      split_ifs with ht
      · have hany : es.any isLlmStartEv = false :=
          List.any_eq_false.mpr (fun x hx => by simp [h x (List.mem_cons_of_mem e hx)])
        simp [hany, htail]
      · exact htail

theorem noTokenBeforeStart_append_of_no_token : ∀ l1 l2 : List StreamEvent,
    (∀ e ∈ l1, isTokenEv e = false) → noTokenBeforeStart l2 = true →
    noTokenBeforeStart (l1 ++ l2) = true := by
  intro l1 l2 h1 h2
  induction l1 with
  | nil => simpa using h2
  | cons e es ih =>
      rw [List.cons_append]
      unfold noTokenBeforeStart
      split_ifs with ht
      · have := h1 e (List.mem_cons_self e es)
        rw [this] at ht; cases ht
      · exact ih (fun x hx => h1 x (List.mem_cons_of_mem e hx))

theorem run_false_noTokenBeforeStart : ∀ cs : List Chunk,
    noDeltaBeforeStart cs = true → noTokenBeforeStart (transformRun false cs) = true := by
  intro cs
  induction cs with
  | nil => intro _; rfl
  | cons c cs ih =>
      intro h
      by_cases hs : isStartSignal c = true
      · rw [transformRun, transformStep_of_start_false c hs]
        have hstep : ∀ (m msg : String) (rest : List StreamEvent),
            noTokenBeforeStart (StreamEvent.llm_start m msg :: rest) =
              noTokenBeforeStart rest := fun _ _ _ => rfl
        simp only [Prod.snd, List.singleton_append, hstep]
        exact noTokenBeforeStart_of_no_llmstart _ (run_true_no_llmstart cs)
      · have hsf : isStartSignal c = false := by simpa using hs
        have h' : c.type ≠ "text-delta" ∧ noDeltaBeforeStart cs = true := by
          unfold noDeltaBeforeStart at h
          rw [if_neg (by simp [hs])] at h
          simpa using h
        rw [transformRun, transformStep_flag_of_not_start false c hsf]
        exact noTokenBeforeStart_append_of_no_token _ _
          (transformStep_no_token_of_not_delta false c h'.1) (ih h'.2)

/-- Claim C1 (amended): for every upstream chunk sequence the transformer's
output contains at most one `llm_start`; and provided no `text-delta` chunk
arrives before the first generation-start signal (which the model-calling
runtime guarantees, since a stream opens with its `start` marker), every
`llm_start` precedes every `token` in the output. -/
theorem c1_llm_start_once_and_first : ∀ cs : List Chunk,
    countLlmStart (transformRun false cs) ≤ 1 ∧
    (noDeltaBeforeStart cs = true → noTokenBeforeStart (transformRun false cs) = true) := by
  intro cs
  refine ⟨?_, run_false_noTokenBeforeStart cs⟩
  induction cs with
  | nil => simp [transformRun, countLlmStart]
  | cons c cs ih =>
      by_cases hs : isStartSignal c = true
      · rw [transformRun, transformStep_of_start_false c hs]
        simp only [Prod.fst, Prod.snd]
        rw [countLlmStart_append,
          countLlmStart_nil_of_all _ (run_true_no_llmstart cs)]
        simp [countLlmStart, isLlmStartEv]
      · have hsf : isStartSignal c = false := by simpa using hs
        rw [transformRun, transformStep_flag_of_not_start false c hsf,
          countLlmStart_append,
          countLlmStart_nil_of_all _ (transformStep_no_llmstart_of_not_start false c hsf)]
        simpa using ih

theorem c1_llm_start_once_and_first_witness :
    countLlmStart (transformRun false [{ type := "start" }, { type := "text-delta", text := some (.str "x") }]) ≤ 1 ∧
    noTokenBeforeStart (transformRun false [{ type := "start" }, { type := "text-delta", text := some (.str "x") }]) = true :=
  ⟨(c1_llm_start_once_and_first _).1, (c1_llm_start_once_and_first _).2 rfl⟩

/-- Claim C1 counterexample: on the upstream sequence `text-delta` then
`start` the code emits the `token` before the `llm_start`, so the claim's
unrestricted quantification over chunk sequences fails. -/
theorem c1_counterexample :
    ¬ c1Property [{ type := "text-delta", text := some (.str "x") }, { type := "start" }] := by
  intro h
  have h2 := h.2
  have hf : noTokenBeforeStart (transformRun false
      [{ type := "text-delta", text := some (.str "x") }, { type := "start" }]) = false := rfl
  rw [hf] at h2
  exact Bool.false_ne_true h2

theorem transformStep_no_terminal : ∀ (st : Bool) (c : Chunk),
    isTerminalChunk c = false → ∀ e ∈ (transformStep st c).2, isTerminalEv e = false := by
  intro st c h
  simp only [isTerminalChunk, Bool.or_eq_false_iff, beq_eq_false_iff_ne] at h
  unfold transformStep
  split_ifs <;> simp_all [isTerminalEv]

theorem transformStep_terminal : ∀ (st : Bool) (c : Chunk),
    isTerminalChunk c = true → ∃ e, transformStep st c = (st, [e]) ∧ isTerminalEv e = true := by
  intro st c h
  simp only [isTerminalChunk, Bool.or_eq_true, beq_iff_eq] at h
  rcases h with (h | h) | h
  · exact ⟨.complete "Analysis complete", by simp [transformStep, isStartSignal, h], rfl⟩
  · exact ⟨.error ("Tool error: " ++ errorStrOf c), by simp [transformStep, isStartSignal, h], rfl⟩
  · exact ⟨.error ("Error: " ++ errorStrOf c), by simp [transformStep, isStartSignal, h], rfl⟩

theorem terminatesOnce_single : ∀ e : StreamEvent,
    isTerminalEv e = true → terminatesOnce [e] = true := by
  intro e h
  cases e <;> simp_all [terminatesOnce, isTerminalEv]

theorem noEventsAfterError_single : ∀ e : StreamEvent,
    isTerminalEv e = true → noEventsAfterError [e] = true := by
  intro e h
  cases e <;> simp_all [noEventsAfterError, isTerminalEv]

theorem terminatesOnce_append : ∀ l1 l2 : List StreamEvent,
    (∀ e ∈ l1, isTerminalEv e = false) → terminatesOnce l2 = true →
    terminatesOnce (l1 ++ l2) = true := by
  intro l1 l2 h1 h2
  unfold terminatesOnce at h2 ⊢
  rw [List.filter_append, List.filter_eq_nil_iff.mpr (by simpa using h1),
    List.nil_append, List.getLast?_append]
  rcases hlast : l2.getLast? with _ | e
  · rw [hlast] at h2; simp at h2
  · rw [hlast] at h2
    simpa [Option.or] using h2

theorem noEventsAfterError_append : ∀ l1 l2 : List StreamEvent,
    (∀ e ∈ l1, isErrorEv e = false) → noEventsAfterError l2 = true →
    noEventsAfterError (l1 ++ l2) = true := by
  intro l1 l2 h1 h2
  induction l1 with
  | nil => simpa using h2
  | cons e es ih =>
      have hes := ih (fun x hx => h1 x (List.mem_cons_of_mem e hx))
      have he := h1 e (List.mem_cons_self e es)
      cases e <;> simp_all [noEventsAfterError, isErrorEv]

theorem run_terminal_aux : ∀ (cs : List Chunk) (st : Bool) (t : Chunk),
    isTerminalChunk t = true → (∀ c ∈ cs, isTerminalChunk c = false) →
    terminatesOnce (transformRun st (cs ++ [t])) = true ∧
    noEventsAfterError (transformRun st (cs ++ [t])) = true := by
  intro cs
  induction cs with
  | nil =>
      intro st t ht _
      obtain ⟨e, he, hterm⟩ := transformStep_terminal st t ht
      rw [List.nil_append, transformRun, he]
      simp only [Prod.snd, Prod.fst, transformRun, List.append_nil]
      exact ⟨terminatesOnce_single e hterm, noEventsAfterError_single e hterm⟩
  | cons c cs ih =>
      intro st t ht hall
      have hc := hall c (List.mem_cons_self c cs)
      have ihr := ih (transformStep st c).1 t ht (fun x hx => hall x (List.mem_cons_of_mem c hx))
      rw [List.cons_append, transformRun]
      constructor
      · exact terminatesOnce_append _ _ (transformStep_no_terminal st c hc) ihr.1
      · refine noEventsAfterError_append _ _ (fun e he => ?_) ihr.2
        have := transformStep_no_terminal st c hc e he
        cases e <;> simp_all [isErrorEv, isTerminalEv]

/-- Claim C2 (amended): the code performs no terminal latching — it maps
`finish` and error chunks to terminal events one for one — so the output
ends with exactly one of `complete`/`error`, with nothing after it (and in
particular nothing after an `error`), precisely when the upstream sequence
ends with its single terminal chunk, which is how the model-calling runtime
closes a stream. -/
theorem c2_single_terminal_last : ∀ (cs : List Chunk) (t : Chunk),
    isTerminalChunk t = true → (∀ c ∈ cs, isTerminalChunk c = false) →
    terminatesOnce (transformRun false (cs ++ [t])) = true ∧
    noEventsAfterError (transformRun false (cs ++ [t])) = true :=
  fun cs t ht hall => run_terminal_aux cs false t ht hall

theorem c2_single_terminal_last_witness :
    terminatesOnce (transformRun false
      ([{ type := "start" }, { type := "text-delta", text := some (.str "x") }] ++ [{ type := "finish" }])) = true ∧
    noEventsAfterError (transformRun false
      ([{ type := "start" }, { type := "text-delta", text := some (.str "x") }] ++ [{ type := "finish" }])) = true :=
  c2_single_terminal_last _ _ rfl (by decide)

/-- Claim C2 counterexample: when the upstream keeps emitting after an
`error` chunk, the code keeps forwarding — here a `token` follows the
`error`, so the output neither ends at the error nor ends with a terminal
event. -/
theorem c2_counterexample :
    ¬ c2Property [{ type := "error", error := some (.str "boom") },
      { type := "text-delta", text := some (.str "x") }] := by
  intro h
  have h2 := h.2
  have hf : noEventsAfterError (transformRun false
      [{ type := "error", error := some (.str "boom") },
        { type := "text-delta", text := some (.str "x") }]) = false := rfl
  rw [hf] at h2
  exact Bool.false_ne_true h2

theorem titleScanAux_mem_no_lt : ∀ (fuel : Nat) (s b : List Char),
    b ∈ titleScanAux fuel s → ∀ ch ∈ b, ch ≠ '<' := by
  intro fuel
  induction fuel with
  | zero => intro s b hb; simp [titleScanAux] at hb
  | succ fuel ih =>
      intro s b hb
      cases s with
      | nil => simp [titleScanAux] at hb
      | cons c rest =>
          rw [titleScanAux] at hb
          dsimp only at hb
          split_ifs at hb with h1 h2
          · rcases List.mem_cons.1 hb with rfl | hb'
            · intro ch hch
              have := List.mem_takeWhile_imp hch
              simpa using this
            · exact ih _ _ hb'
          · exact ih _ _ hb
          · exact ih _ _ hb

theorem stripTagsAux_nil : ∀ k : Nat, stripTagsAux k [] = [] := by
  intro k; cases k <;> rfl

theorem stripTagsAux_cons_ne : ∀ (k : Nat) (a : Char) (tl : List Char), a ≠ '<' →
    stripTagsAux (k + 1) (a :: tl) = a :: stripTagsAux k tl := by
  intro k a tl h
  have hne : ('<' == a) = false := beq_eq_false_iff_ne.mpr (fun e => h e.symm)
  have h1 : hasPfxStr "</title>" (a :: tl) = false := by
    show List.isPrefixOf ('<' :: '/' :: 't' :: 'i' :: 't' :: 'l' :: 'e' :: '>' :: []) (a :: tl) = false
    rw [List.isPrefixOf]
    simp [hne]
  have h2 : hasPfxStr "<title>" (a :: tl) = false := by
    show List.isPrefixOf ('<' :: 't' :: 'i' :: 't' :: 'l' :: 'e' :: '>' :: []) (a :: tl) = false
    rw [List.isPrefixOf]
    simp [hne]
  rw [stripTagsAux, h1, h2]
  simp

theorem stripTagsAux_append_close : ∀ (b : List Char) (k : Nat),
    (∀ ch ∈ b, ch ≠ '<') → b.length + 1 ≤ k →
    stripTagsAux k (b ++ "</title>".toList) = b := by
  intro b
  induction b with
  | nil =>
      intro k _ hk
      cases k with
      | zero => omega
      | succ k' =>
          rw [List.nil_append, show ("</title>".toList) =
            '<' :: '/' :: 't' :: 'i' :: 't' :: 'l' :: 'e' :: '>' :: [] from rfl,
            stripTagsAux]
          simp [hasPfxStr, List.isPrefixOf, stripTagsAux_nil]
  | cons a b ih =>
      intro k hch hk
      cases k with
      | zero => simp at hk
      | succ k' =>
          rw [List.cons_append, stripTagsAux_cons_ne k' a _ (hch a (List.mem_cons_self a b)),
            ih k' (fun x hx => hch x (List.mem_cons_of_mem a hx)) (by simp at hk ⊢; omega)]

theorem stripTitleTags_wrap : ∀ b : List Char, (∀ ch ∈ b, ch ≠ '<') →
    stripTitleTags ("<title>".toList ++ b ++ "</title>".toList) = b := by
  intro b h
  unfold stripTitleTags
  have hlen : ("<title>".toList ++ b ++ "</title>".toList).length = b.length + 15 := by
    simp only [List.length_append, show ("<title>".toList).length = 7 from rfl,
      show ("</title>".toList).length = 8 from rfl]
    omega
  rw [hlen]
  have hsplit : "<title>".toList ++ b ++ "</title>".toList =
      '<' :: 't' :: 'i' :: 't' :: 'l' :: 'e' :: '>' :: (b ++ "</title>".toList) := by
    simp
  rw [hsplit]
  rw [show b.length + 15 = (b.length + 14) + 1 from rfl, stripTagsAux]
  simp only [hasPfxStr, List.isPrefixOf, show ("</title>".toList) =
      '<' :: '/' :: 't' :: 'i' :: 't' :: 'l' :: 'e' :: '>' :: [] from rfl]
  norm_num
  exact stripTagsAux_append_close b (b.length + 14) h (by omega)

theorem normalizeTitle_wrap : ∀ b : List Char, (∀ ch ∈ b, ch ≠ '<') →
    normalizeTitle (String.mk ("<title>".toList ++ b ++ "</title>".toList)) =
      String.mk (collapseWs (jsTrim b)) := by
  intro b h
  unfold normalizeTitle
  have hdata : (String.mk ("<title>".toList ++ b ++ "</title>".toList)).toList =
      "<title>".toList ++ b ++ "</title>".toList := rfl
  rw [hdata, stripTitleTags_wrap b h]

/-- The code's summarizer agrees with the spec's wording of it: matching the
full tagged substrings and then deleting the tags is the same as taking the
delimited bodies directly. -/
theorem arxivMessage_eq_spec : ∀ s : String, arxivMessage s = specSummaryMessage s := by
  intro s
  have hmap : paperTitles s =
      (((titleBodies s).drop 1).take 3).map (fun t => String.mk (collapseWs (jsTrim t))) := by
    unfold paperTitles titleMatches
    rw [← List.map_drop, ← List.map_take, List.map_map]
    apply List.map_eq_map_iff.mpr
    intro b hb
    have hbmem : b ∈ titleBodies s :=
      List.mem_of_mem_drop (List.mem_of_mem_take hb)
    exact normalizeTitle_wrap b (titleScanAux_mem_no_lt _ _ b hbmem)
  unfold arxivMessage specSummaryMessage
  rw [hmap]

/-- Claim C3: a `tool-result` chunk whose tool is `arxiv_search` and whose
output is the string `S` yields exactly one `tool_result` event whose
message is the spec's summary formula: `Found M papers` for `M` occurrences
of `<entry>`, extended with `Top:` and the up-to-three normalized paper
titles (the title-delimited substrings of `S` after the leading feed title)
joined by a bullet, whenever at least one such title exists. -/
theorem c3_tool_result_summary :
    ∀ (st : Bool) (c : Chunk) (S : String),
      c.type = "tool-result" → c.toolName = some (.str "arxiv_search") →
      c.output = some (.str S) →
      transformStep st c =
        (st, [.tool_result "arxiv_search" (specSummaryMessage S)
          (asStr c.toolCallId) c.input c.output]) := by
  intro st c S ht hn ho
  have hname : toolNameOf c = "arxiv_search" := by
    simp [toolNameOf, hn, jToString]
  have hmsg : resultMessage c = specSummaryMessage S := by
    rw [resultMessage, ho]
    simp only [hname]
    simp [arxivMessage_eq_spec S]
  rw [transformStep]
  rw [show isStartSignal c = false by simp [isStartSignal, ht]]
  simp only [Bool.false_eq_true, if_false]
  rw [show (c.type == "tool-call") = false by simp [ht],
    show (c.type == "tool-result") = true by simp [ht]]
  simp [hname, hmsg, ho]

theorem c3_tool_result_summary_witness :
    transformStep false
      { type := "tool-result", toolName := some (.str "arxiv_search"),
        output := some (.str "<feed><title>ArXiv Query Feed</title><entry><title>Paper One</title></entry><entry><title>  Paper   Two </title></entry></feed>") } =
      (false, [.tool_result "arxiv_search" "Found 2 papers. Top: Paper One • Paper Two"
        none none (some (.str "<feed><title>ArXiv Query Feed</title><entry><title>Paper One</title></entry><entry><title>  Paper   Two </title></entry></feed>"))]) := by
  rw [c3_tool_result_summary false _ _ rfl rfl rfl]
  rfl

/-- Claim C4 (amended): a non-success literature response (such as a 503)
makes `fetchArxiv` hand the model the textual placeholder; since that
placeholder is a string, the summarizer path runs on it — finding no entry
delimiters and no titles — so the `tool_result` message is `Found 0 papers`,
not the non-textual fallback `arxiv_search complete`. -/
theorem c4_fetch_error_summarized :
    ∀ (st : Bool) (tcid inp : Option JVal) (q : String) (mr : Nat) (net : String → HttpResp),
      (net (arxivUrl q mr)).status = 503 →
      transformStep st
        { type := "tool-result", toolName := some (.str "arxiv_search"), toolCallId := tcid,
          input := inp, output := some (.str (fetchArxiv q mr net)) } =
        (st, [.tool_result "arxiv_search" "Found 0 papers" (asStr tcid) inp
          (some (.str "Error: ArXiv API returned status 503"))]) := by
  intro st tcid inp q mr net h
  have hok : (net (arxivUrl q mr)).ok = false := by simp [HttpResp.ok, h]
  have hfetch : fetchArxiv q mr net = "Error: ArXiv API returned status 503" := by
    have h503 : (toString (503 : Nat) : String) = "503" := rfl
    simp [fetchArxiv, hok, h, h503]
  rw [hfetch]
  rfl

theorem c4_fetch_error_summarized_witness :
    transformStep false
      { type := "tool-result", toolName := some (.str "arxiv_search"), toolCallId := none,
        input := none,
        output := some (.str (fetchArxiv "diffusion models" 5
          (fun _ => { status := 503, body := "Service Unavailable" }))) } =
      (false, [.tool_result "arxiv_search" "Found 0 papers" none none
        (some (.str "Error: ArXiv API returned status 503"))]) :=
  c4_fetch_error_summarized false none none "diffusion models" 5 _ rfl

/-- Claim C4 counterexample: on the placeholder produced by a 503 response
the code emits the summarizer message `Found 0 papers`, not the claimed
non-textual fallback `arxiv_search complete`. -/
theorem c4_counterexample :
    (transformStep false
      { type := "tool-result", toolName := some (.str "arxiv_search"),
        output := some (.str "Error: ArXiv API returned status 503") }).2 =
      [.tool_result "arxiv_search" "Found 0 papers" none none
        (some (.str "Error: ArXiv API returned status 503"))] ∧
    "Found 0 papers" ≠ "arxiv_search complete" := by
  exact ⟨rfl, by decide⟩
